import Mathlib

/-!
Shallow embedding of `nolitsa/data.py` (time-series generators for chaotic
systems) and verification of the frozen claims about it.

Modelling conventions:
  * Python floats are modelled by `ℝ`; `x ** c` with a float exponent is
    `Real.rpow`; `x ** 2` with the int literal is monoid `^ (2 : ℕ)`.
  * `np.random.random` draws are an explicit parameter `seed : ℕ → ℝ`;
    the contents of an uninitialized `np.empty` buffer are an explicit
    parameter `junk : ℕ → ℝ`.
  * `scipy.integrate.odeint` is an external collaborator; it is a parameter
    `integ` whose contract (one state per time-grid point) enters theorems
    as a hypothesis.
  * numpy exceptions (broadcast failures, zero slice step, negative
    dimensions) are modelled by `Except String`; code paths that cannot
    raise return `Except.ok`.
  * Python `int(q)` truncates toward zero; Python slices `x[s::st]` are
    modelled by `pySlice` with full clamping semantics; Python negative
    indexing `x[-1]` is modelled by `pyIdx`.
-/

noncomputable section

/-- Python `int()` applied to a float: truncation toward zero. -/
def pyInt (q : ℝ) : Int := if q < 0 then -(Int.floor (-q)) else Int.floor q

/-- Stride `sample = int(sample / step)` computed by `lorenz` and `roessler`
(data.py lines 215 and 316). -/
def flowStride (sample step : ℝ) : Int := pyInt (sample / step)

/-- Stride `sample = int(n * sample / tau)` computed by `mackey_glass`
(data.py line 263). -/
def mgStride (n : ℕ) (sample tau : ℝ) : Int := pyInt (n * sample / tau)

/-- Indices selected by the Python slice `x[s::st]` on an array of length
`len`, for `st ≠ 0`, with Python's clamping rules. -/
def pySliceIdx (len : ℕ) (s st : Int) : List ℕ :=
  if 0 < st then
    let s' : ℕ := if s < 0 then (s + len).toNat else min s.toNat len
    let m : ℕ := st.toNat
    let cnt : ℕ := (len - s' + (m - 1)) / m
    (List.range cnt).map (fun i => s' + i * m)
  else if st < 0 then
    if len = 0 then []
    else if s + len < 0 then []
    else
      let m : ℕ := (-st).toNat
      let s' : ℕ := if s < 0 then (s + len).toNat else min s.toNat (len - 1)
      (List.range (s' / m + 1)).map (fun i => s' - i * m)
  else []

/-- Python slice `x[s::st]`: raises `ValueError` when the step is zero,
otherwise selects `pySliceIdx`. -/
def pySlice {α : Type} [Inhabited α] (xs : List α) (s st : Int) :
    Except String (List α) :=
  if st = 0 then Except.error "slice step cannot be zero"
  else Except.ok ((pySliceIdx xs.length s st).map (fun i => xs.getD i default))

/-- Embedding of `np.linspace(a, b, N)` with the default `endpoint=True`: `N` points
`a + (b - a) * k / (N - 1)`; for `N = 1` this yields `[a]` (the division
by zero convention matches numpy's special case). -/
def npLinspace (a b : ℝ) (N : ℕ) : List ℝ :=
  (List.range N).map (fun k : ℕ => a + (b - a) * (k : ℝ) / ((N : ℝ) - 1))

/-- The integration time grid built by `lorenz` and `roessler`
(data.py lines 216-217 and 317-318):
`np.linspace(0, (stride*(length+discard))*step, stride*(length+discard))`. -/
def flowTimeGrid (stride : Int) (L discard : ℕ) (step : ℝ) : List ℝ :=
  npLinspace 0 (((stride * (L + discard) : Int) : ℝ) * step)
    ((stride * (L + discard) : Int)).toNat

/-- Embedding of `np.mean` of a 1-d array. -/
def npMean (xs : List ℝ) : ℝ := xs.sum / xs.length

/-- Embedding of `np.var` of a 1-d array (population variance, `ddof = 0`). -/
def npVar (xs : List ℝ) : ℝ :=
  ((xs.map (fun v => (v - npMean xs) ^ 2)).sum) / xs.length

/-- Embedding of `np.std` of a 1-d array (population standard deviation). -/
def npStd (xs : List ℝ) : ℝ := Real.sqrt (npVar xs)

/-- The final rescaling of `falpha` (data.py lines 92-93):
`x = sqrt(var) * x / std(x); return mean + x - mean(x)`. -/
def rescale (xs : List ℝ) (mean var : ℝ) : List ℝ :=
  (xs.map (fun v => Real.sqrt var * v / npStd xs)).map
    (fun v => mean + v - npMean (xs.map (fun w => Real.sqrt var * w / npStd xs)))

/-- Number of frequencies of `fft.rfftfreq(L)`: `L / 2 + 1`. -/
def nfreqs (L : ℕ) : ℕ := L / 2 + 1

/-- The `k`-th entry of `fft.rfftfreq(L)`: `k / L`. -/
def freqAt (L k : ℕ) : ℝ := (k : ℝ) / L

/-- The power spectrum before cutoffs: `freqs[1:] ** -alpha` with
`P(0) = 0` inserted (data.py lines 70-71). -/
def rawPower (L : ℕ) (alpha : ℝ) (k : ℕ) : ℝ :=
  if k = 0 then 0 else freqAt L k ^ (-alpha)

/-- The power spectrum after the cutoff masking (data.py lines 73-77).
Python's `if fl:` treats both `None` and `0.0` as absent. -/
def cutPower (L : ℕ) (alpha : ℝ) (fl fu : Option ℝ) (k : ℕ) : ℝ :=
  let p1 :=
    match fl with
    | none => rawPower L alpha k
    | some v => if v = 0 then rawPower L alpha k
                else if freqAt L k < v then 0 else rawPower L alpha k
  match fu with
  | none => p1
  | some v => if v = 0 then p1
              else if v < freqAt L k then 0 else p1

/-- Amplitude `y = sqrt(power) * exp(1j * phase)` with `phase = 2 * pi * u k`
(data.py lines 80-81); `u` is the stream of uniform draws. -/
def rawY (L : ℕ) (alpha : ℝ) (fl fu : Option ℝ) (u : ℕ → ℝ) (k : ℕ) : ℂ :=
  (Real.sqrt (cutPower L alpha fl fu k) : ℝ) *
    Complex.exp (Complex.I * (2 * Real.pi * u k))

/-- The Nyquist fix for even length (data.py lines 86-87):
`y[-1] = np.abs(y[-1] * np.sqrt(2))`. -/
def fixedY (L : ℕ) (alpha : ℝ) (fl fu : Option ℝ) (u : ℕ → ℝ) (k : ℕ) : ℂ :=
  if L % 2 = 0 ∧ k = L / 2 then
    ((Complex.abs (rawY L alpha fl fu u k * (Real.sqrt 2 : ℝ)) : ℝ) : ℂ)
  else rawY L alpha fl fu u k

/-- Hermitian extension of the one-sided spectrum to a full spectrum of
length `L`, as assumed by `fft.irfft`. -/
def hermC (L : ℕ) (alpha : ℝ) (fl fu : Option ℝ) (u : ℕ → ℝ) (k : ℕ) : ℂ :=
  if k < nfreqs L then fixedY L alpha fl fu u k
  else (starRingEnd ℂ) (fixedY L alpha fl fu u (L - k))

/-- Embedding of `fft.irfft(y, n=L)` at output index `j`: the inverse discrete Fourier
transform of the hermitian-extended spectrum (numpy convention, factor
`1/L`, kernel `exp(+2*pi*i*j*k/L)`); the result is real for hermitian
input, so the real part is taken. -/
def irfftAt (L : ℕ) (c : ℕ → ℂ) (j : ℕ) : ℝ :=
  ((∑ k ∈ Finset.range L,
      c k * Complex.exp (2 * Real.pi * Complex.I * j * k / L)).re) / L

/-- The pre-rescaling signal of `falpha`: `x = fft.irfft(y, n=length)`
(data.py line 89). -/
def falphaPre (L : ℕ) (alpha : ℝ) (fl fu : Option ℝ) (u : ℕ → ℝ) : List ℝ :=
  (List.range L).map (irfftAt L (hermC L alpha fl fu u))

/-- The list returned by `falpha` (rescaled signal). -/
def falphaList (L : ℕ) (alpha : ℝ) (fl fu : Option ℝ) (mean var : ℝ)
    (u : ℕ → ℝ) : List ℝ :=
  rescale (falphaPre L alpha fl fu u) mean var

/-- Embedding of `falpha(length, alpha, fl, fu, mean, var)` (data.py lines 33-93).
The only raising path is `length = 0` (rejected by `fft.irfft`); the
function body itself contains no validation. -/
def falpha (L : ℕ) (alpha : ℝ) (fl fu : Option ℝ) (mean var : ℝ)
    (u : ℕ → ℝ) : Except String (List ℝ) :=
  if L = 0 then Except.error "invalid number of FFT data points"
  else Except.ok (falphaList L alpha fl fu mean var u)

/-- One step of the Henon map (data.py line 127):
`x[i] = (1 - a*x[i-1][0]**2 + b*x[i-1][1], x[i-1][0])`. -/
def henonNext (a b : ℝ) (p : ℝ × ℝ) : ℝ × ℝ :=
  (1 - a * p.1 ^ 2 + b * p.2, p.1)

/-- Iterates of a map from a starting point. -/
def orbit {α : Type} (f : α → α) (x : α) : ℕ → α
  | 0 => x
  | k + 1 => f (orbit f x k)

/-- Seeding of a 2-d map's initial row `x[0]` from an optional `x0`
(data.py lines 121-124).  Python `if not x0:` treats `None` and an empty
sequence as absent; numpy assignment broadcasts a length-1 source and
raises `ValueError` on any other length mismatch. -/
def map2Seed (x0 : Option (List ℝ)) (dflt : ℝ × ℝ) :
    Except String (ℝ × ℝ) :=
  match x0 with
  | none => Except.ok dflt
  | some xs =>
    if xs.isEmpty then Except.ok dflt
    else if xs.length = 2 then Except.ok (xs.getD 0 0, xs.getD 1 0)
    else if xs.length = 1 then Except.ok (xs.getD 0 0, xs.getD 0 0)
    else Except.error "could not broadcast input array"

/-- Embedding of `henon(length, x0, a, b, discard)` (data.py lines 96-129). -/
def henon (L : ℕ) (x0 : Option (List ℝ)) (a b : ℝ) (discard : ℕ)
    (seed : ℕ → ℝ) : Except String (List (ℝ × ℝ)) :=
  if L + discard = 0 then Except.error "index 0 is out of bounds"
  else
    match map2Seed x0 (0.0 + 0.01 * (-1 + 2 * seed 0),
                       0.9 + 0.01 * (-1 + 2 * seed 1)) with
    | Except.error e => Except.error e
    | Except.ok s =>
      Except.ok (((List.range (L + discard)).map
        (orbit (henonNext a b) s)).drop discard)

/-- One step of the Ikeda map (data.py lines 168-171). -/
def ikedaNext (alpha beta gamma mu : ℝ) (p : ℝ × ℝ) : ℝ × ℝ :=
  let phi := beta - alpha / (1 + p.1 ^ 2 + p.2 ^ 2)
  (gamma + mu * (p.1 * Real.cos phi - p.2 * Real.sin phi),
   mu * (p.1 * Real.sin phi + p.2 * Real.cos phi))

/-- Embedding of `ikeda(length, x0, alpha, beta, gamma, mu, discard)`
(data.py lines 132-173). -/
def ikeda (L : ℕ) (x0 : Option (List ℝ)) (alpha beta gamma mu : ℝ)
    (discard : ℕ) (seed : ℕ → ℝ) : Except String (List (ℝ × ℝ)) :=
  if L + discard = 0 then Except.error "index 0 is out of bounds"
  else
    match map2Seed x0 (0.1 * (-1 + 2 * seed 0), 0.1 * (-1 + 2 * seed 1)) with
    | Except.error e => Except.error e
    | Except.ok s =>
      Except.ok (((List.range (L + discard)).map
        (orbit (ikedaNext alpha beta gamma mu) s)).drop discard)

/-- The Lorenz derivative function (data.py lines 208-210). -/
def lorenzDeriv (sigma beta rho : ℝ) (x : ℝ × ℝ × ℝ) (_t : ℝ) : ℝ × ℝ × ℝ :=
  (sigma * (x.2.1 - x.1), x.1 * (rho - x.2.2) - x.2.1,
   x.1 * x.2.1 - beta * x.2.2)

/-- Embedding of `lorenz(length, x0, sigma, beta, rho, step, sample, discard)`
(data.py lines 176-220); `integ` is the external `odeint`. -/
def lorenz (L : ℕ) (x0 : Option (ℝ × ℝ × ℝ)) (sigma beta rho step sample : ℝ)
    (discard : ℕ) (seed : ℕ → ℝ)
    (integ : ((ℝ × ℝ × ℝ) → ℝ → ℝ × ℝ × ℝ) → (ℝ × ℝ × ℝ) → List ℝ →
      List (ℝ × ℝ × ℝ)) :
    Except String (List ℝ × List (ℝ × ℝ × ℝ)) :=
  let stride := flowStride sample step
  if stride * (L + discard) < 0 then
    Except.error "number of samples must be non-negative"
  else
    let t := flowTimeGrid stride L discard step
    let x0v := x0.getD (0.0 + 0.25 * (-1 + 2 * seed 0),
                        -0.01 + 0.25 * (-1 + 2 * seed 1),
                        9.0 + 0.25 * (-1 + 2 * seed 2))
    let xs := integ (lorenzDeriv sigma beta rho) x0v t
    match pySlice t (discard * stride) stride,
          pySlice xs (discard * stride) stride with
    | Except.ok ts, Except.ok ys => Except.ok (ts, ys)
    | Except.error e, _ => Except.error e
    | _, Except.error e => Except.error e

/-- The Roessler derivative function (data.py lines 313-314). -/
def roesslerDeriv (a b c : ℝ) (x : ℝ × ℝ × ℝ) (_t : ℝ) : ℝ × ℝ × ℝ :=
  (-(x.2.1 + x.2.2), x.1 + a * x.2.1, b + x.2.2 * (x.1 - c))

/-- Embedding of `roessler(length, x0, a, b, c, step, sample, discard)`
(data.py lines 281-324); `integ` is the external `odeint`. -/
def roessler (L : ℕ) (x0 : Option (ℝ × ℝ × ℝ)) (a b c step sample : ℝ)
    (discard : ℕ) (seed : ℕ → ℝ)
    (integ : ((ℝ × ℝ × ℝ) → ℝ → ℝ × ℝ × ℝ) → (ℝ × ℝ × ℝ) → List ℝ →
      List (ℝ × ℝ × ℝ)) :
    Except String (List ℝ × List (ℝ × ℝ × ℝ)) :=
  let stride := flowStride sample step
  if stride * (L + discard) < 0 then
    Except.error "number of samples must be non-negative"
  else
    let t := flowTimeGrid stride L discard step
    let x0v := x0.getD (-9.0 + 0.25 * (-1 + 2 * seed 0),
                        0.0 + 0.25 * (-1 + 2 * seed 1),
                        0.0 + 0.25 * (-1 + 2 * seed 2))
    let xs := integ (roesslerDeriv a b c) x0v t
    match pySlice t (discard * stride) stride,
          pySlice xs (discard * stride) stride with
    | Except.ok ts, Except.ok ys => Except.ok (ts, ys)
    | Except.error e, _ => Except.error e
    | _, Except.error e => Except.error e

/-- Parameters of the Mackey-Glass fine-grid recurrence: the constants
`a, b, c, tau` of the delay equation, the delay subdivision `n`, and the
total fine-grid length `G = grids`. -/
structure MGP where
  a : ℝ
  b : ℝ
  c : ℝ
  tau : ℝ
  n : ℕ
  G : ℕ

/-- Coefficient `A = (2*n - b*tau) / (2*n + b*tau)` (data.py line 272). -/
def mgA (p : MGP) : ℝ := (2 * (p.n : ℝ) - p.b * p.tau) / (2 * (p.n : ℝ) + p.b * p.tau)

/-- Coefficient `B = a*tau / (2*n + b*tau)` (data.py line 273). -/
def mgB (p : MGP) : ℝ := p.a * p.tau / (2 * (p.n : ℝ) + p.b * p.tau)

/-- The nonlinearity `f(u) = u / (1 + u**c)` of the discretized delay
equation (`**` with a float exponent is `rpow`). -/
def mgF (c u : ℝ) : ℝ := u / (1 + u ^ c)

/-- Python indexing of a length-`G` array: a negative index counts from
the end (`x[-1]` is the last element). -/
def pyIdx (G : ℕ) (k : Int) : ℕ := (if k < 0 then k + G else k).toNat

/-- One iteration of the `mackey_glass` loop body (data.py lines 275-277):
at loop index `i`, slot `i + 1` is overwritten with
`A*x[i] + B*(f(x[i-n]) + f(x[i-n+1]))`, the reads using Python indexing
on the current buffer. -/
def mgStep (p : MGP) (buf : ℕ → ℝ) (i : ℕ) : ℕ → ℝ :=
  fun j => if j = i + 1 then
    mgA p * buf i +
      mgB p * (mgF p.c (buf (pyIdx p.G ((i : Int) - p.n))) +
        mgF p.c (buf (pyIdx p.G ((i : Int) - p.n + 1))))
  else buf j

/-- The buffer after `t` iterations of the loop, which runs
`for i in range(n - 1, grids - 1)`: iteration `t` uses loop index
`n - 1 + t`. -/
def mgIter (p : MGP) (init : ℕ → ℝ) : ℕ → ℕ → ℝ
  | 0 => init
  | t + 1 => mgStep p (mgIter p init t) (p.n - 1 + t)

/-- The fine-grid buffer after the whole loop (`G - n` iterations). -/
def mgFinal (p : MGP) (init : ℕ → ℝ) : ℕ → ℝ := mgIter p init (p.G - p.n)

/-- The buffer as allocated by `np.empty(grids)` and seeded on `x[:n]`
(data.py lines 265-270): slots below `min n G` hold the seed values, the
rest hold the unspecified `np.empty` contents `junk`. -/
def mgInit (n G : ℕ) (vals junk : ℕ → ℝ) : ℕ → ℝ :=
  fun j => if j < min n G then vals j else junk j

/-- The seed values written by `x[:n] = ...` (data.py lines 267-270),
with numpy broadcast semantics: the target slice has length `min n G`;
a source of that length is copied, a length-1 source broadcasts, and any
other length raises `ValueError`.  `if not x0:` treats `None` and an
empty sequence as absent, in which case a length-`n` random draw is
assigned. -/
def mgSeedVals (n G : ℕ) (x0 : Option (List ℝ)) (seed : ℕ → ℝ) :
    Except String (ℕ → ℝ) :=
  let tlen := min n G
  match x0 with
  | none =>
    if n = tlen then Except.ok (fun j => 0.5 + 0.05 * (-1 + 2 * seed j))
    else Except.error "could not broadcast input array"
  | some xs =>
    if xs.isEmpty then
      (if n = tlen then Except.ok (fun j => 0.5 + 0.05 * (-1 + 2 * seed j))
       else Except.error "could not broadcast input array")
    else if xs.length = tlen then Except.ok (fun j => xs.getD j 0)
    else if xs.length = 1 then Except.ok (fun _ => xs.getD 0 0)
    else Except.error "could not broadcast input array"

/-- Embedding of `mackey_glass(length, x0, a, b, c, tau, n, sample, discard)`
(data.py lines 223-278). -/
def mackey_glass (L : ℕ) (x0 : Option (List ℝ)) (a b c tau : ℝ) (n : ℕ)
    (sample : ℝ) (discard : ℕ) (seed junk : ℕ → ℝ) :
    Except String (List ℝ) :=
  let sub := mgStride n sample tau
  let gridsZ : Int := (n * discard : ℕ) + sub * L
  if gridsZ < 0 then Except.error "negative dimensions are not allowed"
  else
    let G := gridsZ.toNat
    match mgSeedVals n G x0 seed with
    | Except.error e => Except.error e
    | Except.ok vals =>
      let buf := mgFinal ⟨a, b, c, tau, n, G⟩ (mgInit n G vals junk)
      pySlice ((List.range G).map buf) ((n * discard : ℕ) : Int) sub

/-- Concrete Mackey-Glass recurrence parameters used in counterexamples:
`a = 2, b = 0, c = 2, tau = 1, n = 1, G = 3`, giving `A = 1, B = 1`. -/
def pC : MGP := ⟨2, 0, 2, 1, 1, 3⟩

/-- Concrete seed values (all zero). -/
def valsC : ℕ → ℝ := fun _ => 0

/-- Concrete `np.empty` contents: all ones. -/
def junkC1 : ℕ → ℝ := fun _ => 1

/-- Concrete `np.empty` contents: all zeros. -/
def junkC0 : ℕ → ℝ := fun _ => 0

/-- Concrete initial buffer with junk = 1. -/
def initC1 : ℕ → ℝ := mgInit 1 3 valsC junkC1

/-- Concrete initial buffer with junk = 0. -/
def initC0 : ℕ → ℝ := mgInit 1 3 valsC junkC0

/-- Concrete Mackey-Glass recurrence parameters with `n = 2`:
`a = 2, b = 0, c = 2, tau = 2, G = 3`, giving `A = 1, B = 1`. -/
def pN2 : MGP := ⟨2, 0, 2, 2, 2, 3⟩

/-- Concrete broadcast seed values (scalar 1/2 broadcast over two slots). -/
def valsH : ℕ → ℝ := fun _ => 1 / 2

/-- Concrete initial buffer for the broadcast run. -/
def initH : ℕ → ℝ := mgInit 2 3 valsH junkC1

/-- Concrete seed values from the supplied `x0 = [1, 0]`. -/
def valsN : ℕ → ℝ := fun j => (([(1 : ℝ), 0])[j]?).getD 0

/-- Concrete initial buffer for the negative-stride run. -/
def initN : ℕ → ℝ := mgInit 2 3 valsN junkC1

/-- A concrete integrator satisfying the `odeint` length contract
(constant trajectory), used to instantiate hypotheses in witnesses. -/
def integC : ((ℝ × ℝ × ℝ) → ℝ → ℝ × ℝ × ℝ) → (ℝ × ℝ × ℝ) → List ℝ →
    List (ℝ × ℝ × ℝ) :=
  fun _ y ts => ts.map (fun _ => y)

end

/-! ### Helper lemmas -/

theorem sum_map_addc (xs : List ℝ) (t : ℝ) :
    (xs.map (fun v => t + v)).sum = xs.length * t + xs.sum := by
  induction xs with
  | nil => simp
  | cons h tl ih => simp [ih]; ring

theorem sum_map_mulc (xs : List ℝ) (g : ℝ → ℝ) (c : ℝ) :
    (xs.map (fun v => c * g v)).sum = c * (xs.map g).sum :=
  List.sum_map_mul_left xs g c

theorem npMean_shift (xs : List ℝ) (t : ℝ) (h : xs ≠ []) :
    npMean (xs.map (fun v => t + v)) = t + npMean xs := by
  have hl : (xs.length : ℝ) ≠ 0 := by
    exact_mod_cast fun h0 => h (List.length_eq_zero.mp (by exact_mod_cast h0))
  simp only [npMean, sum_map_addc, List.length_map]
  field_simp
  ring

theorem npMean_smul (xs : List ℝ) (c : ℝ) :
    npMean (xs.map (fun v => c * v)) = c * npMean xs := by
  have := sum_map_mulc xs id c
  simp only [id] at this
  simp only [npMean, List.length_map, List.map_id] at this ⊢
  rw [show (fun v : ℝ => c * v) = fun v : ℝ => c * id v from rfl] at *
  simp only [id] at *
  rw [this, mul_div_assoc]

theorem npVar_shift (xs : List ℝ) (t : ℝ) (h : xs ≠ []) :
    npVar (xs.map (fun v => t + v)) = npVar xs := by
  unfold npVar
  rw [npMean_shift xs t h, List.map_map, List.length_map]
  have he : ((fun v => (v - (t + npMean xs)) ^ 2) ∘ (fun v : ℝ => t + v))
      = fun v => (v - npMean xs) ^ 2 := by
    funext v
    simp only [Function.comp]
    ring
  rw [he]

theorem npVar_smul (xs : List ℝ) (c : ℝ) :
    npVar (xs.map (fun v => c * v)) = c ^ 2 * npVar xs := by
  unfold npVar
  rw [npMean_smul, List.map_map, List.length_map]
  have he : ((fun v => (v - c * npMean xs) ^ 2) ∘ (fun v : ℝ => c * v))
      = fun v => c ^ 2 * ((v - npMean xs) ^ 2) := by
    funext v
    simp only [Function.comp]
    ring
  rw [he, sum_map_mulc xs (fun v => (v - npMean xs) ^ 2) (c ^ 2), mul_div_assoc]

theorem npVar_nonneg (xs : List ℝ) : 0 ≤ npVar xs := by
  unfold npVar
  apply div_nonneg
  · apply List.sum_nonneg
    intro x hx
    obtain ⟨v, _, rfl⟩ := List.mem_map.mp hx
    positivity
  · exact Nat.cast_nonneg _

theorem npVar_ne_zero (xs : List ℝ) (h : npStd xs ≠ 0) : npVar xs ≠ 0 :=
  fun h0 => h (by simp [npStd, h0])

theorem rescale_moments (xs : List ℝ) (mean var : ℝ) (hne : xs ≠ [])
    (hstd : npStd xs ≠ 0) (hvar : 0 ≤ var) :
    npMean (rescale xs mean var) = mean ∧ npVar (rescale xs mean var) = var := by
  have hv0 : npVar xs ≠ 0 := npVar_ne_zero xs hstd
  have hveq : npStd xs ^ 2 = npVar xs := Real.sq_sqrt (npVar_nonneg xs)
  have hc2 : (Real.sqrt var / npStd xs) ^ 2 = var / npVar xs := by
    rw [div_pow, Real.sq_sqrt hvar, hveq]
  have hys : xs.map (fun v => Real.sqrt var * v / npStd xs)
      = xs.map (fun v => (Real.sqrt var / npStd xs) * v) := by
    congr 1
    funext v
    ring
  have hmapne : xs.map (fun v => (Real.sqrt var / npStd xs) * v) ≠ [] := by
    simpa using hne
  unfold rescale
  rw [hys]
  have hsh : (fun v => mean + v -
        npMean (xs.map (fun v => (Real.sqrt var / npStd xs) * v)))
      = fun v => (mean - npMean (xs.map (fun v => (Real.sqrt var / npStd xs) * v))) + v := by
    funext v
    ring
  rw [hsh]
  constructor
  · rw [npMean_shift _ _ hmapne]
    ring
  · rw [npVar_shift _ _ hmapne, npVar_smul, hc2, div_mul_cancel₀ _ hv0]

theorem pySlice_exact {α : Type} [Inhabited α] (xs : List α) (m L s : ℕ)
    (hm : 1 ≤ m) (hlen : xs.length = s + m * L) :
    ∃ l, pySlice xs (s : Int) (m : Int) = Except.ok l ∧ l.length = L := by
  unfold pySlice
  have hm0 : ¬((m : Int) = 0) := by omega
  rw [if_neg hm0]
  refine ⟨_, rfl, ?_⟩
  rw [List.length_map]
  unfold pySliceIdx
  have hpos : (0 : Int) < m := by omega
  rw [if_pos hpos]
  have hns : ¬((s : Int) < 0) := by omega
  simp only [hns, if_false, Int.toNat_natCast]
  have hmin : min s xs.length = s := Nat.min_eq_left (by omega)
  rw [hmin, hlen, List.length_map, List.length_range]
  have : s + m * L - s = m * L := by omega
  rw [this, Nat.mul_add_div (by omega), Nat.div_eq_of_lt (by omega)]
  omega

theorem npLinspace_getD (a b : ℝ) (n k : ℕ) (h : k < n) :
    (npLinspace a b n).getD k 0 = a + (b - a) * k / ((n : ℝ) - 1) := by
  unfold npLinspace
  simp only [List.getD, List.get?_map, List.get?_range h,
    Option.map_some', Option.getD_some]

theorem npLinspace_length (a b : ℝ) (n : ℕ) : (npLinspace a b n).length = n := by
  simp only [npLinspace, List.length_map, List.length_range]

theorem flowTimeGrid_length (stride : Int) (L d : ℕ) (step : ℝ) :
    (flowTimeGrid stride L d step).length = (stride * (L + d)).toNat := by
  simp [flowTimeGrid, npLinspace_length]

theorem mgIter_zero (p : MGP) (init : ℕ → ℝ) : mgIter p init 0 = init := rfl

theorem mgIter_succ (p : MGP) (init : ℕ → ℝ) (t : ℕ) :
    mgIter p init (t + 1) = mgStep p (mgIter p init t) (p.n - 1 + t) := rfl

theorem mgIter_stable (p : MGP) (init : ℕ → ℝ) (hn : 1 ≤ p.n) :
    ∀ t s j, t ≤ s → j < p.n + t → mgIter p init s j = mgIter p init t j := by
  intro t s j hts hj
  induction s with
  | zero =>
    have : t = 0 := Nat.le_zero.mp hts
    subst this
    rfl
  | succ s ih =>
    by_cases h : t = s + 1
    · subst h; rfl
    · have hts' : t ≤ s := by omega
      have hne : j ≠ p.n - 1 + s + 1 := by omega
      rw [mgIter_succ]
      simp only [mgStep]
      rw [if_neg hne]
      exact ih hts'

/-! ### Claim theorems -/

/-- Claim C2 (amended): in `mackey_glass`, for every fine-grid index `i`
with `n ≤ i ≤ G - 2`, the final fine-grid buffer satisfies
`x[i+1] = A*x[i] + B*(f(x[i-n]) + f(x[i-n+1]))` with
`f(u) = u/(1+u^c)`, `A = (2n - b*tau)/(2n + b*tau)`,
`B = a*tau/(2n + b*tau)`.  (At `i = n - 1` the identity fails in general:
the value the loop reads as `x[i-n] = x[-1]` is the uninitialized content
of the last slot, which the final iteration later overwrites; see the
counterexample.) -/
theorem mg_recurrence_amended (p : MGP) (init : ℕ → ℝ) (hn : 1 ≤ p.n) :
    ∀ i : ℕ, p.n ≤ i → i + 1 < p.G →
      mgFinal p init (i + 1) =
        mgA p * mgFinal p init i +
          mgB p * (mgF p.c (mgFinal p init (i - p.n)) +
            mgF p.c (mgFinal p init (i - p.n + 1))) := by
  intro i hni hiG
  have hstep : p.n - 1 + (i - p.n + 1) = i := by omega
  have h1 : mgIter p init (p.G - p.n) (i + 1)
      = mgIter p init (i - p.n + 1 + 1) (i + 1) :=
    mgIter_stable p init hn (i - p.n + 1 + 1) (p.G - p.n) (i + 1)
      (by omega) (by omega)
  have h2 : mgIter p init (i - p.n + 1 + 1) (i + 1)
      = mgA p * mgIter p init (i - p.n + 1) i +
        mgB p * (mgF p.c (mgIter p init (i - p.n + 1)
            (pyIdx p.G ((i : Int) - p.n))) +
          mgF p.c (mgIter p init (i - p.n + 1)
            (pyIdx p.G ((i : Int) - p.n + 1)))) := by
    rw [mgIter_succ, hstep]
    simp only [mgStep, eq_self_iff_true, if_true]
  have hidx1 : pyIdx p.G ((i : Int) - p.n) = i - p.n := by
    unfold pyIdx
    rw [if_neg (by omega)]
    omega
  have hidx2 : pyIdx p.G ((i : Int) - p.n + 1) = i - p.n + 1 := by
    unfold pyIdx
    rw [if_neg (by omega)]
    omega
  have e1 : mgIter p init (p.G - p.n) i = mgIter p init (i - p.n + 1) i :=
    mgIter_stable p init hn (i - p.n + 1) (p.G - p.n) i (by omega) (by omega)
  have e2 : mgIter p init (p.G - p.n) (i - p.n)
      = mgIter p init (i - p.n + 1) (i - p.n) :=
    mgIter_stable p init hn (i - p.n + 1) (p.G - p.n) (i - p.n)
      (by omega) (by omega)
  have e3 : mgIter p init (p.G - p.n) (i - p.n + 1)
      = mgIter p init (i - p.n + 1) (i - p.n + 1) :=
    mgIter_stable p init hn (i - p.n + 1) (p.G - p.n) (i - p.n + 1)
      (by omega) (by omega)
  unfold mgFinal
  rw [h1, h2, hidx1, hidx2, e1, e2, e3]

/-- Claim C8 (confirmed): whenever the pre-rescaling signal of `falpha`
has nonzero sample standard deviation and `var` is nonnegative, the
returned sequence has sample mean exactly `mean` and sample (population)
variance exactly `var`, for every length, `alpha`, cutoffs and phases —
exact in real arithmetic. -/
theorem falpha_moments_confirmed :
    ∀ (L : ℕ) (alpha : ℝ) (fl fu : Option ℝ) (mean var : ℝ) (u : ℕ → ℝ),
      0 < L → 0 ≤ var → npStd (falphaPre L alpha fl fu u) ≠ 0 →
      npMean (falphaList L alpha fl fu mean var u) = mean ∧
        npVar (falphaList L alpha fl fu mean var u) = var := by
  intro L alpha fl fu mean var u hL hvar hstd
  have hlen : (falphaPre L alpha fl fu u).length = L := by
    simp [falphaPre]
  have hne : falphaPre L alpha fl fu u ≠ [] := by
    intro h0
    rw [h0] at hlen
    simp at hlen
    omega
  exact rescale_moments _ mean var hne hstd hvar

/-- Claim C3 (amended): the strides are computed by Python `int()`, which
truncates toward zero — for a nonnegative ratio this is the floor, not
round-to-nearest; the truncation differs from the exact ratio by less
than 1. -/
theorem stride_trunc_amended :
    (∀ sample step : ℝ, 0 ≤ sample / step →
        flowStride sample step = ⌊sample / step⌋) ∧
      (∀ (n : ℕ) (sample tau : ℝ), 0 ≤ (n : ℝ) * sample / tau →
        mgStride n sample tau = ⌊(n : ℝ) * sample / tau⌋) ∧
      (∀ q : ℝ, 0 ≤ q → ((pyInt q : Int) : ℝ) ≤ q ∧ q - 1 < ((pyInt q : Int) : ℝ)) := by
  refine ⟨?_, ?_, ?_⟩
  · intro sample step h
    unfold flowStride pyInt
    rw [if_neg (not_lt.mpr h)]
  · intro n sample tau h
    unfold mgStride pyInt
    rw [if_neg (not_lt.mpr h)]
  · intro q hq
    unfold pyInt
    rw [if_neg (not_lt.mpr hq)]
    refine ⟨Int.floor_le q, ?_⟩
    exact Int.sub_one_lt_floor q

/-- Claim C7 (amended): the `lorenz`/`roessler` time grid is
`np.linspace` with its default inclusive endpoint: for
`N = stride*(length+discard) ≥ 2` points the grid spans `[0, N*step]`
inclusive, consecutive points are separated by `N*step/(N-1)` (not by
`step`), and the last grid point equals `N*step` (it is not strictly
below it). -/
theorem flow_grid_amended :
    ∀ (stride : Int) (L discard : ℕ) (step : ℝ) (N : ℕ),
      (stride * (L + discard)).toNat = N → 2 ≤ N →
      (∀ k : ℕ, k + 1 < N →
          (flowTimeGrid stride L discard step).getD (k + 1) 0 -
            (flowTimeGrid stride L discard step).getD k 0
          = (N : ℝ) * step / ((N : ℝ) - 1)) ∧
        (flowTimeGrid stride L discard step).getD (N - 1) 0
          = (N : ℝ) * step := by
  intro stride L d step N hN h2
  have hsint : stride * ((L : Int) + d) = (N : Int) := by omega
  have hone : (1 : ℝ) ≤ (N : ℝ) := by exact_mod_cast (by omega : 1 ≤ N)
  have hne1 : ((N : ℝ) - 1) ≠ 0 := by
    have : (2 : ℝ) ≤ (N : ℝ) := by exact_mod_cast h2
    linarith
  have hb : ((stride * ((L : Int) + d) : Int) : ℝ) * step = (N : ℝ) * step := by
    rw [hsint]
    push_cast
    ring
  unfold flowTimeGrid
  push_cast at hb ⊢
  rw [hN, hb]
  constructor
  · intro k hk
    rw [npLinspace_getD _ _ _ _ (by omega), npLinspace_getD _ _ _ _ (by omega)]
    field_simp
    push_cast
    ring
  · rw [npLinspace_getD _ _ _ _ (by omega)]
    have hc : ((N - 1 : ℕ) : ℝ) = (N : ℝ) - 1 := by
      have : ((N - 1 : ℕ) : ℝ) = (N : ℝ) - ((1 : ℕ) : ℝ) :=
        Nat.cast_sub (by omega : 1 ≤ N)
      simpa using this
    rw [hc]
    field_simp

/-- Claim C1 (amended): for every generator and every valid parameter set
(positive length, non-negative discard, subsampling stride at least 1,
matching initial condition, and — additionally, a condition the claim
omits — for `mackey_glass` a fine grid of at least `n` points,
`n ≤ n*discard + sub*length`), the returned trajectory has exactly
`length` entries, and for `lorenz`/`roessler` the returned time array
also has exactly `length` entries.  When the mackey_glass fine grid is
shorter than `n`, the call instead raises a broadcast error (see the
counterexample). -/
theorem trajectory_length_amended :
    (∀ (L : ℕ) (alpha : ℝ) (fl fu : Option ℝ) (mean var : ℝ) (u : ℕ → ℝ),
        (falphaList L alpha fl fu mean var u).length = L)
    ∧ (∀ (L : ℕ) (v w a b : ℝ) (d : ℕ) (seed : ℕ → ℝ), 0 < L →
        ∃ l, henon L (some [v, w]) a b d seed = Except.ok l ∧ l.length = L)
    ∧ (∀ (L : ℕ) (v w alpha beta gamma mu : ℝ) (d : ℕ) (seed : ℕ → ℝ),
        0 < L →
        ∃ l, ikeda L (some [v, w]) alpha beta gamma mu d seed = Except.ok l ∧
          l.length = L)
    ∧ (∀ (L d : ℕ) (x0 : Option (ℝ × ℝ × ℝ)) (sigma beta rho step sample : ℝ)
        (seed : ℕ → ℝ) integ (m : ℕ),
        (∀ f y ts, (integ f y ts).length = ts.length) →
        flowStride sample step = (m : Int) → 1 ≤ m →
        ∃ ts ys, lorenz L x0 sigma beta rho step sample d seed integ
            = Except.ok (ts, ys) ∧ ts.length = L ∧ ys.length = L)
    ∧ (∀ (L d : ℕ) (x0 : Option (ℝ × ℝ × ℝ)) (a b c step sample : ℝ)
        (seed : ℕ → ℝ) integ (m : ℕ),
        (∀ f y ts, (integ f y ts).length = ts.length) →
        flowStride sample step = (m : Int) → 1 ≤ m →
        ∃ ts ys, roessler L x0 a b c step sample d seed integ
            = Except.ok (ts, ys) ∧ ts.length = L ∧ ys.length = L)
    ∧ (∀ (L d n : ℕ) (xs : List ℝ) (a b c tau sample : ℝ)
        (seed junk : ℕ → ℝ) (m : ℕ),
        mgStride n sample tau = (m : Int) → 1 ≤ m → xs.length = n → 1 ≤ n →
        n ≤ n * d + m * L →
        ∃ l, mackey_glass L (some xs) a b c tau n sample d seed junk
            = Except.ok l ∧ l.length = L) := by
  refine ⟨?_, ?_, ?_, ?_, ?_, ?_⟩
  · intro L alpha fl fu mean var u
    simp [falphaList, rescale, falphaPre]
  · intro L v w a b d seed hL
    refine ⟨((List.range (L + d)).map (orbit (henonNext a b) (v, w))).drop d,
      ?_, ?_⟩
    · unfold henon
      rw [if_neg (by omega : ¬(L + d = 0))]
      have hseed : map2Seed (some [v, w])
          (0.0 + 0.01 * (-1 + 2 * seed 0), 0.9 + 0.01 * (-1 + 2 * seed 1))
          = Except.ok (v, w) := by
        simp [map2Seed]
      rw [hseed]
    · simp only [List.length_drop, List.length_map, List.length_range]
      omega
  · intro L v w alpha beta gamma mu d seed hL
    refine ⟨((List.range (L + d)).map
        (orbit (ikedaNext alpha beta gamma mu) (v, w))).drop d, ?_, ?_⟩
    · unfold ikeda
      rw [if_neg (by omega : ¬(L + d = 0))]
      have hseed : map2Seed (some [v, w])
          (0.1 * (-1 + 2 * seed 0), 0.1 * (-1 + 2 * seed 1))
          = Except.ok (v, w) := by
        simp [map2Seed]
      rw [hseed]
    · simp only [List.length_drop, List.length_map, List.length_range]
      omega
  · intro L d x0 sigma beta rho step sample seed integ m hI hms hm
    simp only [lorenz]
    rw [hms]
    have h1 : (m : Int) * ((L : Int) + (d : Int)) = ((m * (L + d) : ℕ) : Int) := by
      push_cast
      ring
    rw [h1, if_neg (by omega)]
    have hτ : (flowTimeGrid ((m : ℕ) : Int) L d step).length = d * m + m * L := by
      rw [flowTimeGrid_length, h1, Int.toNat_natCast]
      ring
    have hx : (integ (lorenzDeriv sigma beta rho)
        (x0.getD (0.0 + 0.25 * (-1 + 2 * seed 0),
          -0.01 + 0.25 * (-1 + 2 * seed 1), 9.0 + 0.25 * (-1 + 2 * seed 2)))
        (flowTimeGrid ((m : ℕ) : Int) L d step)).length = d * m + m * L := by
      rw [hI, hτ]
    have hcast : ((d : Int)) * ((m : ℕ) : Int) = ((d * m : ℕ) : Int) := by
      push_cast
      ring
    rw [hcast]
    obtain ⟨ts, hts, htsl⟩ := pySlice_exact _ m L (d * m) hm hτ
    obtain ⟨ys, hys, hysl⟩ := pySlice_exact _ m L (d * m) hm hx
    rw [hts, hys]
    exact ⟨ts, ys, rfl, htsl, hysl⟩
  · intro L d x0 a b c step sample seed integ m hI hms hm
    simp only [roessler]
    rw [hms]
    have h1 : (m : Int) * ((L : Int) + (d : Int)) = ((m * (L + d) : ℕ) : Int) := by
      push_cast
      ring
    rw [h1, if_neg (by omega)]
    have hτ : (flowTimeGrid ((m : ℕ) : Int) L d step).length = d * m + m * L := by
      rw [flowTimeGrid_length, h1, Int.toNat_natCast]
      ring
    have hx : (integ (roesslerDeriv a b c)
        (x0.getD (-9.0 + 0.25 * (-1 + 2 * seed 0),
          0.0 + 0.25 * (-1 + 2 * seed 1), 0.0 + 0.25 * (-1 + 2 * seed 2)))
        (flowTimeGrid ((m : ℕ) : Int) L d step)).length = d * m + m * L := by
      rw [hI, hτ]
    have hcast : ((d : Int)) * ((m : ℕ) : Int) = ((d * m : ℕ) : Int) := by
      push_cast
      ring
    rw [hcast]
    obtain ⟨ts, hts, htsl⟩ := pySlice_exact _ m L (d * m) hm hτ
    obtain ⟨ys, hys, hysl⟩ := pySlice_exact _ m L (d * m) hm hx
    rw [hts, hys]
    exact ⟨ts, ys, rfl, htsl, hysl⟩
  · intro L d n xs a b c tau sample seed junk m hms hm hxl hn hnG
    simp only [mackey_glass]
    rw [hms]
    have hg : ((n * d : ℕ) : Int) + (m : Int) * (L : Int)
        = ((n * d + m * L : ℕ) : Int) := by
      push_cast
      ring
    rw [hg, if_neg (by omega), Int.toNat_natCast]
    have hne : xs ≠ [] := by
      intro h0
      rw [h0] at hxl
      simp at hxl
      omega
    obtain ⟨y, ys, rfl⟩ := List.exists_cons_of_ne_nil hne
    have hseed : mgSeedVals n (n * d + m * L) (some (y :: ys)) seed
        = Except.ok (fun j => (y :: ys).getD j 0) := by
      unfold mgSeedVals
      have hmin : min n (n * d + m * L) = n := Nat.min_eq_left hnG
      simp only [hmin, List.isEmpty_cons, Bool.false_eq_true, if_false, hxl,
        if_true]
    rw [hseed]
    have hblen : ((List.range (n * d + m * L)).map
        (mgFinal ⟨a, b, c, tau, n, n * d + m * L⟩
          (mgInit n (n * d + m * L) (fun j => (y :: ys).getD j 0) junk))).length
        = n * d + m * L := by
      simp
    exact pySlice_exact _ m L (n * d) hm hblen

/-! ### Concrete falpha evaluations -/

theorem hermC_deg (k : ℕ) (hk : k < 2) :
    hermC 2 1 (some 1) none (fun _ => 0) k = 0 := by
  interval_cases k <;>
    norm_num [hermC, nfreqs, fixedY, rawY, cutPower, rawPower, freqAt,
      Real.sqrt_eq_zero', map_zero]

theorem falphaPre_deg : falphaPre 2 1 (some 1) none (fun _ => 0) = [0, 0] := by
  have h0 := hermC_deg 0 (by norm_num)
  have h1 := hermC_deg 1 (by norm_num)
  unfold falphaPre irfftAt
  rw [show List.range 2 = [0, 1] from rfl]
  simp [Finset.sum_range_succ, h0, h1]

theorem hermC_w0 : hermC 2 0 none none (fun _ => 0) 0 = 0 := by
  norm_num [hermC, nfreqs, fixedY, rawY, cutPower, rawPower, freqAt]

theorem hermC_w1 : hermC 2 0 none none (fun _ => 0) 1 = ((Real.sqrt 2 : ℝ) : ℂ) := by
  norm_num [hermC, nfreqs, fixedY, rawY, cutPower, rawPower, freqAt,
    Real.rpow_zero, Real.sqrt_one, Complex.exp_zero, Complex.abs_ofReal,
    abs_of_nonneg, Real.sqrt_nonneg]

theorem falphaPre_w : falphaPre 2 0 none none (fun _ => 0)
    = [Real.sqrt 2 / 2, -(Real.sqrt 2 / 2)] := by
  unfold falphaPre irfftAt
  rw [show List.range 2 = [0, 1] from rfl]
  simp only [List.map_cons, List.map_nil, Finset.sum_range_succ,
    Finset.sum_range_zero, hermC_w0, hermC_w1, zero_add, zero_mul, mul_zero]
  have e00 : (2 * (Real.pi : ℂ) * Complex.I * ((0 : ℕ) : ℂ) * ((1 : ℕ) : ℂ)
      / ((2 : ℕ) : ℂ)) = 0 := by
    push_cast
    ring
  have e11 : (2 * (Real.pi : ℂ) * Complex.I * ((1 : ℕ) : ℂ) * ((1 : ℕ) : ℂ)
      / ((2 : ℕ) : ℂ)) = (Real.pi : ℂ) * Complex.I := by
    push_cast
    ring
  rw [e00, e11, Complex.exp_zero, Complex.exp_pi_mul_I]
  norm_num
  ring

theorem npStd_falphaPre_w : npStd (falphaPre 2 0 none none (fun _ => 0)) ≠ 0 := by
  rw [falphaPre_w]
  have h2 : Real.sqrt 2 ^ 2 = 2 := Real.sq_sqrt (by norm_num)
  have hm : npMean [Real.sqrt 2 / 2, -(Real.sqrt 2 / 2)] = 0 := by
    norm_num [npMean]
  have hv : npVar [Real.sqrt 2 / 2, -(Real.sqrt 2 / 2)] = 1 / 2 := by
    simp only [npVar, hm, List.map_cons, List.map_nil, List.sum_cons,
      List.sum_nil, List.length_cons, List.length_nil]
    rw [show (Real.sqrt 2 / 2 - 0) ^ 2 = Real.sqrt 2 ^ 2 / 4 by ring,
      show (-(Real.sqrt 2 / 2) - 0) ^ 2 = Real.sqrt 2 ^ 2 / 4 by ring, h2]
    norm_num
  rw [npStd, hv]
  rw [Real.sqrt_ne_zero']
  norm_num

/-- Claim C6 counterexample: with `length = 2`, `fl = 1` every frequency
bin is zeroed, yet the `falpha` call does not fail with any error — the
code contains no empty-passband check. -/
theorem falpha_empty_passband_cx :
    ¬ ∃ e, falpha 2 1 (some 1) none 0 1 (fun _ => 0) = Except.error e := by
  rintro ⟨e, he⟩
  simp [falpha] at he

/-- Claim C6 (amended): when the cutoffs zero every frequency bin, the
pre-rescaling signal of `falpha` is identically zero with zero standard
deviation; the call raises no error and returns normally after dividing
by that zero standard deviation (in IEEE arithmetic this produces a
NaN-filled array; there is no "empty passband" validation). -/
theorem falpha_empty_passband_amended :
    falphaPre 2 1 (some 1) none (fun _ => 0) = [0, 0] ∧
      npStd (falphaPre 2 1 (some 1) none (fun _ => 0)) = 0 ∧
      falpha 2 1 (some 1) none 0 1 (fun _ => 0)
        = Except.ok (falphaList 2 1 (some 1) none 0 1 (fun _ => 0)) := by
  refine ⟨falphaPre_deg, ?_, by simp [falpha]⟩
  rw [falphaPre_deg]
  norm_num [npStd, npVar, npMean]

/-- Claim C8 witness: at `length = 2`, `alpha = 0`, no cutoffs, zero
phases, `mean = 0`, `var = 1`, the pre-rescaling signal has nonzero
standard deviation and the returned sequence has mean exactly 0 and
variance exactly 1. -/
theorem falpha_moments_w :
    npStd (falphaPre 2 0 none none (fun _ => 0)) ≠ 0 ∧
      npMean (falphaList 2 0 none none 0 1 (fun _ => 0)) = 0 ∧
        npVar (falphaList 2 0 none none 0 1 (fun _ => 0)) = 1 := by
  refine ⟨npStd_falphaPre_w, ?_, ?_⟩
  · exact (falpha_moments_confirmed 2 0 none none 0 1 (fun _ => 0)
      (by norm_num) (by norm_num) npStd_falphaPre_w).1
  · exact (falpha_moments_confirmed 2 0 none none 0 1 (fun _ => 0)
      (by norm_num) (by norm_num) npStd_falphaPre_w).2

/-! ### Concrete Mackey-Glass evaluations -/

theorem rpow_two' (x : ℝ) : x ^ (2 : ℝ) = x ^ (2 : ℕ) := by
  rw [show (2 : ℝ) = ((2 : ℕ) : ℝ) by norm_num, Real.rpow_natCast]

theorem mgF_eval (u : ℝ) : mgF 2 u = u / (1 + u ^ (2 : ℕ)) := by
  rw [mgF, rpow_two']

theorem mgFinal_pC_unfold (init : ℕ → ℝ) :
    mgFinal pC init = mgStep pC (mgStep pC init 0) 1 := rfl

theorem mgFinal_pN2_unfold (init : ℕ → ℝ) :
    mgFinal pN2 init = mgStep pN2 init 1 := rfl

theorem bufC1_0 : mgFinal pC initC1 0 = 0 := by
  rw [mgFinal_pC_unfold]
  simp only [mgStep]
  norm_num [pC, initC1, mgInit, valsC, junkC1]

theorem bufC1_1 : mgFinal pC initC1 1 = 1 / 2 := by
  rw [mgFinal_pC_unfold]
  simp only [mgStep]
  norm_num [pC, initC1, mgInit, valsC, junkC1, mgA, mgB, mgF_eval, pyIdx]

theorem bufC1_2 : mgFinal pC initC1 2 = 9 / 10 := by
  rw [mgFinal_pC_unfold]
  simp only [mgStep]
  norm_num [pC, initC1, mgInit, valsC, junkC1, mgA, mgB, mgF_eval, pyIdx]

theorem bufC0_1 : mgFinal pC initC0 1 = 0 := by
  rw [mgFinal_pC_unfold]
  simp only [mgStep]
  norm_num [pC, initC0, mgInit, valsC, junkC0, mgA, mgB, mgF_eval, pyIdx]

theorem bufC0_2 : mgFinal pC initC0 2 = 0 := by
  rw [mgFinal_pC_unfold]
  simp only [mgStep]
  norm_num [pC, initC0, mgInit, valsC, junkC0, mgA, mgB, mgF_eval, pyIdx]

theorem bufC0_0 : mgFinal pC initC0 0 = 0 := by
  rw [mgFinal_pC_unfold]
  simp only [mgStep]
  norm_num [pC, initC0, mgInit, valsC, junkC0]

theorem mg_run_j1 :
    mackey_glass 2 (some [0]) 2 0 2 1 1 1 1 (fun _ => 0) junkC1
      = Except.ok [1 / 2, 9 / 10] := by
  have hs : mgStride 1 1 1 = (1 : ℤ) := by
    norm_num [mgStride, pyInt]
  simp only [mackey_glass, hs]
  norm_num [mgSeedVals]
  rw [show (Int.toNat 3) = 3 from rfl,
    show (⟨2, 0, 2, 1, 1, 3⟩ : MGP) = pC from rfl,
    show mgInit 1 3 (fun _ => (0 : ℝ)) junkC1 = initC1 from rfl]
  have hlist : (List.range 3).map (mgFinal pC initC1) = [0, 1 / 2, 9 / 10] := by
    rw [show List.range 3 = [0, 1, 2] from rfl]
    simp only [List.map_cons, List.map_nil]
    rw [bufC1_0, bufC1_1, bufC1_2]
  rw [hlist]
  norm_num [pySlice, show pySliceIdx 3 1 1 = [1, 2] from by decide, List.getD]

theorem mg_run_j0 :
    mackey_glass 2 (some [0]) 2 0 2 1 1 1 1 (fun _ => 0) junkC0
      = Except.ok [0, 0] := by
  have hs : mgStride 1 1 1 = (1 : ℤ) := by
    norm_num [mgStride, pyInt]
  simp only [mackey_glass, hs]
  norm_num [mgSeedVals]
  rw [show (Int.toNat 3) = 3 from rfl,
    show (⟨2, 0, 2, 1, 1, 3⟩ : MGP) = pC from rfl,
    show mgInit 1 3 (fun _ => (0 : ℝ)) junkC0 = initC0 from rfl]
  have hlist : (List.range 3).map (mgFinal pC initC0) = [0, 0, 0] := by
    rw [show List.range 3 = [0, 1, 2] from rfl]
    simp only [List.map_cons, List.map_nil]
    rw [bufC0_0, bufC0_1, bufC0_2]
  rw [hlist]
  norm_num [pySlice, show pySliceIdx 3 1 1 = [1, 2] from by decide, List.getD]

theorem bufH_0 : mgFinal pN2 initH 0 = 1 / 2 := by
  rw [mgFinal_pN2_unfold]
  simp only [mgStep]
  norm_num [pN2, initH, mgInit, valsH, junkC1]

theorem bufH_1 : mgFinal pN2 initH 1 = 1 / 2 := by
  rw [mgFinal_pN2_unfold]
  simp only [mgStep]
  norm_num [pN2, initH, mgInit, valsH, junkC1]

theorem bufH_2 : mgFinal pN2 initH 2 = 7 / 5 := by
  rw [mgFinal_pN2_unfold]
  simp only [mgStep]
  norm_num [pN2, initH, mgInit, valsH, junkC1, mgA, mgB, mgF_eval, pyIdx]

theorem mg_run_c4 :
    mackey_glass 1 (some [1 / 2]) 2 0 2 2 2 1 1 (fun _ => 0) junkC1
      = Except.ok [7 / 5] := by
  have hs : mgStride 2 1 2 = (1 : ℤ) := by
    norm_num [mgStride, pyInt]
  simp only [mackey_glass, hs]
  norm_num [mgSeedVals]
  rw [show (Int.toNat 3) = 3 from rfl,
    show (⟨2, 0, 2, 2, 2, 3⟩ : MGP) = pN2 from rfl]
  rw [show mgInit 2 3 (fun _ => (1 : ℝ) / 2) junkC1 = initH from rfl]
  have hlist : (List.range 3).map (mgFinal pN2 initH)
      = [1 / 2, 1 / 2, 7 / 5] := by
    rw [show List.range 3 = [0, 1, 2] from rfl]
    simp only [List.map_cons, List.map_nil]
    rw [bufH_0, bufH_1, bufH_2]
  rw [hlist]
  norm_num [pySlice, show pySliceIdx 3 2 1 = [2] from by decide, List.getD]

theorem bufN_0 : mgFinal pN2 initN 0 = 1 := by
  rw [mgFinal_pN2_unfold]
  simp only [mgStep]
  norm_num [pN2, initN, mgInit, valsN, junkC1, List.getD]

theorem bufN_1 : mgFinal pN2 initN 1 = 0 := by
  rw [mgFinal_pN2_unfold]
  simp only [mgStep]
  norm_num [pN2, initN, mgInit, valsN, junkC1, List.getD]

theorem bufN_2 : mgFinal pN2 initN 2 = 1 := by
  rw [mgFinal_pN2_unfold]
  simp only [mgStep]
  norm_num [pN2, initN, mgInit, valsN, junkC1, List.getD, mgA, mgB, mgF_eval,
    pyIdx]

theorem mg_run_neg :
    mackey_glass 1 (some [1, 0]) 2 0 2 2 2 (-1) 2 (fun _ => 0) junkC1
      = Except.ok [1, 0, 1] := by
  have hs : mgStride 2 (-1) 2 = (-1 : ℤ) := by
    norm_num [mgStride, pyInt]
  simp only [mackey_glass, hs]
  norm_num [mgSeedVals]
  rw [show (Int.toNat 3) = 3 from rfl,
    show (⟨2, 0, 2, 2, 2, 3⟩ : MGP) = pN2 from rfl]
  rw [show mgInit 2 3 (fun j => (([(1 : ℝ), 0])[j]?).getD 0) junkC1 = initN
    from rfl]
  have hlist : (List.range 3).map (mgFinal pN2 initN) = [1, 0, 1] := by
    rw [show List.range 3 = [0, 1, 2] from rfl]
    simp only [List.map_cons, List.map_nil]
    rw [bufN_0, bufN_1, bufN_2]
  rw [hlist]
  norm_num [pySlice, show pySliceIdx 3 4 (-1) = [2, 1, 0] from by decide,
    List.getD]

theorem mg_run_zero :
    mackey_glass 1 (some [1]) 2 0 2 1 1 (1 / 2) 2 (fun _ => 0) junkC1
      = Except.error "slice step cannot be zero" := by
  have hs : mgStride 1 (1 / 2) 1 = (0 : ℤ) := by
    norm_num [mgStride, pyInt]
  simp only [mackey_glass, hs]
  norm_num [mgSeedVals, pySlice]

theorem mg_run_short :
    mackey_glass 1 (some [1, 0]) 2 0 2 2 2 1 0 (fun _ => 0) (fun _ => 1)
      = Except.error "could not broadcast input array" := by
  have hs : mgStride 2 1 2 = (1 : ℤ) := by
    norm_num [mgStride, pyInt]
  simp only [mackey_glass, hs]
  norm_num [mgSeedVals]

/-- Claim C2 counterexample: at `a = 2, b = 0, c = 2, tau = 1, n = 1,
discard = 1, length = 2, sub = 1` (so `G = 3`), with seed value 0 and
uninitialized buffer contents 1, the claimed recurrence fails at the
first loop index `i = n - 1 = 0`: the final array has `x[1] = 1/2`
(computed from the junk value read at `x[-1]` before it was overwritten),
while the recurrence evaluated on the final array gives `90/181`. -/
theorem mg_recurrence_cx :
    ¬ (mgFinal pC initC1 1 =
        mgA pC * mgFinal pC initC1 0 +
          mgB pC * (mgF pC.c (mgFinal pC initC1 (pyIdx pC.G ((0 : Int) - pC.n))) +
            mgF pC.c (mgFinal pC initC1 (pyIdx pC.G ((0 : Int) - pC.n + 1))))) := by
  have hA : mgA pC = 1 := by norm_num [mgA, pC]
  have hB : mgB pC = 1 := by norm_num [mgB, pC]
  have hi1 : pyIdx pC.G ((0 : Int) - pC.n) = 2 := by decide
  have hi2 : pyIdx pC.G ((0 : Int) - pC.n + 1) = 0 := by decide
  rw [hi1, hi2, hA, hB, show pC.c = 2 from rfl, bufC1_0, bufC1_1, bufC1_2]
  norm_num [mgF_eval]

/-- Claim C2 witness: the amended recurrence instantiated at `i = 1 = n`
in the concrete `G = 3` system. -/
theorem mg_recurrence_amended_w :
    mgFinal pC initC1 (1 + 1) =
      mgA pC * mgFinal pC initC1 1 +
        mgB pC * (mgF pC.c (mgFinal pC initC1 (1 - pC.n)) +
          mgF pC.c (mgFinal pC initC1 (1 - pC.n + 1))) :=
  mg_recurrence_amended pC initC1 (by norm_num [pC]) 1 (by norm_num [pC])
    (by norm_num [pC])

/-- Claim C10 (confirmed): in `mackey_glass`, the first loop iteration
(`i = n - 1`) reads index `i - n = -1`, which Python maps to the last
buffer slot `G - 1`; that slot is uninitialized at that point (the
initial buffer holds the seed only below index `n < G`, `junk`
elsewhere), and both the computed `x[n]` and the returned trajectory
depend on that unspecified value: two different junk contents give
different outputs. -/
theorem mg_uninit_read_confirmed :
    (∀ n G : ℕ, 1 ≤ n → n < G → pyIdx G ((n : Int) - 1 - n) = G - 1)
    ∧ (∀ (n G : ℕ) (vals junk : ℕ → ℝ), n < G →
        mgInit n G vals junk (G - 1) = junk (G - 1))
    ∧ mackey_glass 2 (some [0]) 2 0 2 1 1 1 1 (fun _ => 0) junkC1
        ≠ mackey_glass 2 (some [0]) 2 0 2 1 1 1 1 (fun _ => 0) junkC0
    ∧ mgFinal pC initC1 1 ≠ mgFinal pC initC0 1 := by
  refine ⟨?_, ?_, ?_, ?_⟩
  · intro n G hn hG
    unfold pyIdx
    rw [if_pos (by omega)]
    omega
  · intro n G vals junk hG
    unfold mgInit
    rw [if_neg (by omega)]
  · rw [mg_run_j1, mg_run_j0]
    simp only [ne_eq, Except.ok.injEq, List.cons.injEq]
    norm_num
  · rw [bufC1_1, bufC0_1]
    norm_num

/-- Claim C10 witness: the generic conjuncts instantiated at `n = 1`,
`G = 3`. -/
theorem mg_uninit_read_w :
    pyIdx 3 ((1 : Int) - 1 - 1) = 3 - 1 ∧
      mgInit 1 3 valsC junkC1 (3 - 1) = junkC1 (3 - 1) :=
  ⟨mg_uninit_read_confirmed.1 1 3 (by norm_num) (by norm_num),
    mg_uninit_read_confirmed.2.1 1 3 valsC junkC1 (by norm_num)⟩

/-- Claim C4 counterexample: `mackey_glass` with `n = 2` and a length-1
`x0 = [1/2]` does not fail — numpy silently broadcasts the scalar and the
call returns a trajectory. -/
theorem x0_mismatch_cx :
    mackey_glass 1 (some [1 / 2]) 2 0 2 2 2 1 1 (fun _ => 0) junkC1
      = Except.ok [7 / 5] ∧ ([(1 : ℝ) / 2]).length ≠ 2 :=
  ⟨mg_run_c4, by norm_num⟩

/-- Claim C4 (amended): a supplied `x0` whose length is at least 2 and
differs from the expected dimension raises a broadcast `ValueError`
(not a dedicated invalid-initial-condition error), but a scalar or
length-1 `x0` is silently broadcast and the call proceeds — for
`mackey_glass` the broadcast scalar fills all `n` history slots. -/
theorem x0_mismatch_amended :
    (∀ (L : ℕ) (xs : List ℝ) (a b : ℝ) (d : ℕ) (seed : ℕ → ℝ), 0 < L + d →
        xs ≠ [] → xs.length ≠ 2 → xs.length ≠ 1 →
        henon L (some xs) a b d seed
          = Except.error "could not broadcast input array")
    ∧ (∀ (L : ℕ) (v a b : ℝ) (d : ℕ) (seed : ℕ → ℝ), 0 < L + d →
        ∃ l, henon L (some [v]) a b d seed = Except.ok l)
    ∧ (∀ (L d n : ℕ) (xs : List ℝ) (a b c tau sample : ℝ)
        (seed junk : ℕ → ℝ),
        xs ≠ [] →
        ¬(((n * d : ℕ) : Int) + mgStride n sample tau * L < 0) →
        xs.length ≠
          min n (((n * d : ℕ) : Int) + mgStride n sample tau * L).toNat →
        xs.length ≠ 1 →
        mackey_glass L (some xs) a b c tau n sample d seed junk
          = Except.error "could not broadcast input array")
    ∧ mackey_glass 1 (some [1 / 2]) 2 0 2 2 2 1 1 (fun _ => 0) junkC1
        = Except.ok [7 / 5] := by
  refine ⟨?_, ?_, ?_, mg_run_c4⟩
  · intro L xs a b d seed hLd hne h2 h1
    unfold henon
    rw [if_neg (by omega)]
    obtain ⟨y, ys, rfl⟩ := List.exists_cons_of_ne_nil hne
    have hseed : map2Seed (some (y :: ys))
        (0.0 + 0.01 * (-1 + 2 * seed 0), 0.9 + 0.01 * (-1 + 2 * seed 1))
        = Except.error "could not broadcast input array" := by
      have hy1 : ¬(ys.length = 1) := fun h => h2 (by simp [h])
      have hy0 : ¬(ys = []) := fun h => h1 (by simp [h])
      simp [map2Seed, hy1, hy0]
    rw [hseed]
  · intro L v a b d seed hLd
    refine ⟨((List.range (L + d)).map (orbit (henonNext a b) (v, v))).drop d, ?_⟩
    unfold henon
    rw [if_neg (by omega)]
    have hseed : map2Seed (some [v])
        (0.0 + 0.01 * (-1 + 2 * seed 0), 0.9 + 0.01 * (-1 + 2 * seed 1))
        = Except.ok (v, v) := by
      simp [map2Seed]
    rw [hseed]
  · intro L d n xs a b c tau sample seed junk hne hneg hlen h1
    simp only [mackey_glass]
    rw [if_neg hneg]
    obtain ⟨y, ys, rfl⟩ := List.exists_cons_of_ne_nil hne
    have hseed : mgSeedVals n (((n * d : ℕ) : Int) + mgStride n sample tau * L).toNat
        (some (y :: ys)) seed
        = Except.error "could not broadcast input array" := by
      unfold mgSeedVals
      simp only [List.isEmpty_cons, Bool.false_eq_true, if_false]
      rw [if_neg (by exact hlen), if_neg (by exact h1)]
    rw [hseed]

/-- Claim C4 witness: the generic conjuncts instantiated concretely —
a length-3 `x0` makes `henon` raise the broadcast error, a length-1 `x0`
makes it proceed, and a length-3 `x0` with `n = 2` makes `mackey_glass`
raise the broadcast error. -/
theorem x0_mismatch_amended_w :
    henon 1 (some [1, 2, 3]) 0 0 0 (fun _ => 0)
      = Except.error "could not broadcast input array"
    ∧ (∃ l, henon 1 (some [5]) 0 0 0 (fun _ => 0) = Except.ok l)
    ∧ mackey_glass 1 (some [1, 0, 0]) 2 0 2 2 2 1 1 (fun _ => 0) junkC1
      = Except.error "could not broadcast input array" := by
  refine ⟨x0_mismatch_amended.1 1 [1, 2, 3] 0 0 0 (fun _ => 0) (by norm_num)
      (by simp) (by norm_num) (by norm_num),
    x0_mismatch_amended.2.1 1 5 0 0 0 (fun _ => 0) (by norm_num), ?_⟩
  refine x0_mismatch_amended.2.2.1 1 1 2 [1, 0, 0] 2 0 2 2 1 (fun _ => 0)
    junkC1 (by simp) ?_ ?_ ?_
  · have hs : mgStride 2 1 2 = (1 : ℤ) := by norm_num [mgStride, pyInt]
    rw [hs]
    norm_num
  · have hs : mgStride 2 1 2 = (1 : ℤ) := by norm_num [mgStride, pyInt]
    rw [hs]
    norm_num
  · norm_num

/-- Claim C9 counterexample: `mackey_glass` with a stride that rounds to
`-1` (`sample = -1`, `tau = 2`, `n = 2`) does not fail at all — it
returns a (reversed-slice) trajectory of length 3 instead of the
requested length 1. -/
theorem invalid_stride_cx :
    (¬ ∃ e, mackey_glass 1 (some [1, 0]) 2 0 2 2 2 (-1) 2 (fun _ => 0) junkC1
        = Except.error e)
    ∧ ([(1 : ℝ), 0, 1]).length ≠ 1 := by
  constructor
  · rintro ⟨e, he⟩
    rw [mg_run_neg] at he
    exact Except.noConfusion he
  · norm_num

/-- Claim C9 (amended): no generator validates the stride.  A zero
stride is only caught at the very last step, by the slice operation
raising `ValueError: slice step cannot be zero` (both in `mackey_glass`
and in the flow samplers) — not a fast invalid-stride check; a negative
stride in `mackey_glass` is not caught at all and yields a
reversed trajectory of the wrong length. -/
theorem invalid_stride_amended :
    mackey_glass 1 (some [1]) 2 0 2 1 1 (1 / 2) 2 (fun _ => 0) junkC1
      = Except.error "slice step cannot be zero"
    ∧ mackey_glass 1 (some [1, 0]) 2 0 2 2 2 (-1) 2 (fun _ => 0) junkC1
      = Except.ok [1, 0, 1]
    ∧ ([(1 : ℝ), 0, 1]).length ≠ 1
    ∧ lorenz 1 (some (0, 0, 0)) 10 (8 / 3) 28 1 (1 / 2) 0 (fun _ => 0) integC
      = Except.error "slice step cannot be zero" := by
  refine ⟨mg_run_zero, mg_run_neg, by norm_num, ?_⟩
  have hs : flowStride (1 / 2) 1 = (0 : ℤ) := by
    norm_num [flowStride, pyInt]
  simp only [lorenz, hs]
  norm_num [pySlice]

/-- Claim C1 counterexample: a parameter set that is valid by the claim's
own conditions (length 1 > 0, discard 0 ≥ 0, stride 1 ≥ 1, `x0` of the
documented length `n = 2`) on which `mackey_glass` raises a broadcast
error instead of returning a length-1 trajectory: the fine grid
`n*discard + sub*length = 1` is shorter than `n = 2`. -/
theorem trajectory_length_cx :
    mgStride 2 1 2 = 1 ∧
      mackey_glass 1 (some [1, 0]) 2 0 2 2 2 1 0 (fun _ => 0) (fun _ => 1)
        = Except.error "could not broadcast input array" :=
  ⟨by norm_num [mgStride, pyInt], mg_run_short⟩

/-- Claim C1 witness: the amended theorem instantiated at concrete
parameters for each of the six generators. -/
theorem trajectory_length_amended_w :
    (falphaList 2 0 none none 0 1 (fun _ => 0)).length = 2
    ∧ (∃ l, henon 1 (some [0, 0]) 1 1 0 (fun _ => 0) = Except.ok l ∧
        l.length = 1)
    ∧ (∃ l, ikeda 1 (some [0, 0]) 1 1 1 1 0 (fun _ => 0) = Except.ok l ∧
        l.length = 1)
    ∧ (∃ ts ys, lorenz 1 none 10 (8 / 3) 28 1 1 0 (fun _ => 0) integC
        = Except.ok (ts, ys) ∧ ts.length = 1 ∧ ys.length = 1)
    ∧ (∃ ts ys, roessler 1 none (1 / 5) (1 / 5) (57 / 10) 1 1 0 (fun _ => 0)
        integC = Except.ok (ts, ys) ∧ ts.length = 1 ∧ ys.length = 1)
    ∧ (∃ l, mackey_glass 1 (some [1]) 2 0 2 1 1 1 1 (fun _ => 0) junkC1
        = Except.ok l ∧ l.length = 1) :=
  ⟨trajectory_length_amended.1 2 0 none none 0 1 (fun _ => 0),
    trajectory_length_amended.2.1 1 0 0 1 1 0 (fun _ => 0) (by norm_num),
    trajectory_length_amended.2.2.1 1 0 0 1 1 1 1 0 (fun _ => 0) (by norm_num),
    trajectory_length_amended.2.2.2.1 1 0 none 10 (8 / 3) 28 1 1 (fun _ => 0)
      integC 1 (fun f y ts => by simp [integC])
      (by norm_num [flowStride, pyInt]) (by norm_num),
    trajectory_length_amended.2.2.2.2.1 1 0 none (1 / 5) (1 / 5) (57 / 10) 1 1
      (fun _ => 0) integC 1 (fun f y ts => by simp [integC])
      (by norm_num [flowStride, pyInt]) (by norm_num),
    trajectory_length_amended.2.2.2.2.2 1 1 1 [1] 2 0 2 1 1 (fun _ => 0)
      junkC1 1 (by norm_num [mgStride, pyInt]) (by norm_num) (by norm_num)
      (by norm_num) (by norm_num)⟩

/-- Claim C3 counterexample: at `sample/step = 2.7` the computed flow
stride is `int(2.7) = 2`, while round-to-nearest gives 3. -/
theorem stride_round_cx :
    flowStride (27 / 10) 1 = 2 ∧ round ((27 / 10 : ℝ) / 1) = 3 := by
  constructor
  · norm_num [flowStride, pyInt]
  · norm_num [round_eq]

/-- Claim C3 witness: the truncation characterization instantiated at
concrete ratios. -/
theorem stride_trunc_amended_w :
    flowStride 3 1 = ⌊(3 : ℝ) / 1⌋ ∧
      mgStride 2 1 2 = ⌊((2 : ℕ) : ℝ) * 1 / 2⌋ ∧
      (((pyInt (5 / 2) : Int) : ℝ) ≤ 5 / 2 ∧
        (5 / 2 : ℝ) - 1 < ((pyInt (5 / 2) : Int) : ℝ)) :=
  ⟨stride_trunc_amended.1 3 1 (by norm_num),
    stride_trunc_amended.2.1 2 1 2 (by norm_num),
    stride_trunc_amended.2.2 (5 / 2) (by norm_num)⟩

/-- Claim C7 counterexample: with `stride = 1`, `length = 2`,
`discard = 1`, `step = 1` (so `N = 3` grid points and claimed span
`[0, 3)`), consecutive grid points are separated by `3/2`, not by
`step = 1`, and the last grid point equals 3 — it is not strictly less
than `stride*(length+discard)*step = 3`. -/
theorem flow_grid_cx :
    (flowTimeGrid 1 2 1 1).getD 1 0 - (flowTimeGrid 1 2 1 1).getD 0 0 ≠ 1
    ∧ ¬ ((flowTimeGrid 1 2 1 1).getD 2 0 < (3 : ℝ) * 1) := by
  have e : flowTimeGrid 1 2 1 1 = npLinspace 0 3 3 := by
    unfold flowTimeGrid
    norm_num
    rfl
  rw [e, npLinspace_getD 0 3 3 1 (by norm_num), npLinspace_getD 0 3 3 0
    (by norm_num), npLinspace_getD 0 3 3 2 (by norm_num)]
  constructor <;> norm_num

/-- Claim C7 witness: the amended spacing facts instantiated at
`stride = 1`, `length = 2`, `discard = 1`, `step = 1`, `N = 3`. -/
theorem flow_grid_amended_w :
    (flowTimeGrid 1 2 1 1).getD (0 + 1) 0 - (flowTimeGrid 1 2 1 1).getD 0 0
      = ((3 : ℕ) : ℝ) * 1 / (((3 : ℕ) : ℝ) - 1)
    ∧ (flowTimeGrid 1 2 1 1).getD (3 - 1) 0 = ((3 : ℕ) : ℝ) * 1 := by
  have h := flow_grid_amended 1 2 1 1 3 (by decide) (by norm_num)
  exact ⟨h.1 0 (by norm_num), h.2⟩

/-- Claim C5 (confirmed): `henon(length=5, x0=(0,0), a=1.4, b=0.3,
discard=0)` returns exactly the five claimed states, the first of which
is the supplied `x0`. -/
theorem henon_run5_confirmed :
    henon 5 (some [0, 0]) 1.4 0.3 0 (fun _ => 0)
      = Except.ok [(0, 0), (1, 0), (-0.4, 1), (1.076, -0.4),
          (1 - 1.4 * 1.076 ^ 2 + 0.3 * (-0.4), 1.076)] := by
  have hseed : ∀ dflt, map2Seed (some [(0 : ℝ), 0]) dflt = Except.ok (0, 0) :=
    fun dflt => by simp [map2Seed]
  have h0 : orbit (henonNext 1.4 0.3) ((0 : ℝ), (0 : ℝ)) 0 = (0, 0) := rfl
  have h1 : orbit (henonNext 1.4 0.3) ((0 : ℝ), (0 : ℝ)) 1 = (1, 0) := by
    show henonNext 1.4 0.3 (orbit (henonNext 1.4 0.3) ((0 : ℝ), (0 : ℝ)) 0) = _
    rw [h0]
    norm_num [henonNext]
  have h2 : orbit (henonNext 1.4 0.3) ((0 : ℝ), (0 : ℝ)) 2 = (-0.4, 1) := by
    show henonNext 1.4 0.3 (orbit (henonNext 1.4 0.3) ((0 : ℝ), (0 : ℝ)) 1) = _
    rw [h1]
    norm_num [henonNext]
  have h3 : orbit (henonNext 1.4 0.3) ((0 : ℝ), (0 : ℝ)) 3 = (1.076, -0.4) := by
    show henonNext 1.4 0.3 (orbit (henonNext 1.4 0.3) ((0 : ℝ), (0 : ℝ)) 2) = _
    rw [h2]
    norm_num [henonNext]
  have h4 : orbit (henonNext 1.4 0.3) ((0 : ℝ), (0 : ℝ)) 4
      = (1 - 1.4 * 1.076 ^ 2 + 0.3 * (-0.4), 1.076) := by
    show henonNext 1.4 0.3 (orbit (henonNext 1.4 0.3) ((0 : ℝ), (0 : ℝ)) 3) = _
    rw [h3]
    norm_num [henonNext]
  unfold henon
  rw [if_neg (by norm_num), hseed]
  rw [show List.range 5 = [0, 1, 2, 3, 4] from rfl]
  simp only [List.map_cons, List.map_nil, List.drop_zero]
  rw [h0, h1, h2, h3, h4]
